import Mathlib

/-!
Shallow embedding of the GitHub daily-activity report generator
(src/index.ts) and verification of its specification.

The program reads two credentials from the environment, then for each
configured repository fetches closed issues, closed pull requests and
the day's commits from the GitHub REST API, filters the pull requests
client-side, and renders a single Markdown report, resolving each
commit's modified-file list while the report is being assembled.

Network and clock are modelled as explicit oracles:
  - decoded HTTP responses are `Except String α` values (an `Except.error`
    is an axios request failure carrying `error.message`);
  - the single-commit detail endpoint is an oracle
    `net : String → String → String → Except String CommitDetail`
    mapping (owner, repo, sha) to the decoded response;
  - each call `new Date().toISOString()` is a `nowIso : String` parameter
    held by the function that performs the read, and
    `new Date().toLocaleDateString()` is a `localeDate : String` parameter.

JavaScript truthiness of the nullable strings involved (`undefined`,
`null`, `""` are falsy) is modelled explicitly, as is the exception a
member access on `null`/`undefined` raises inside `Array.prototype.filter`.
-/

/-- Decoded issue entry: the fields the program reads. -/
structure Issue where
  title : String
  html_url : String
deriving DecidableEq, Repr

/-- Decoded `user` object of a pull request. -/
structure PRUser where
  login : String
deriving DecidableEq, Repr

/-- Decoded pull-request entry. `merged_at` is nullable; `user` is nullable
to model a payload whose `user` field is `null` or absent. -/
structure PR where
  title : String
  html_url : String
  merged_at : Option String
  user : Option PRUser
deriving DecidableEq, Repr

/-- Decoded nested `commit` object of a commit-list entry. -/
structure RawCommitInner where
  message : String
deriving DecidableEq, Repr

/-- Decoded commit-list entry as returned by the commits endpoint. -/
structure RawCommit where
  sha : String
  commit : RawCommitInner
  html_url : String
deriving DecidableEq, Repr

/-- The projected commit shape built by `getTodaysCommits`. -/
structure Commit where
  sha : String
  message : String
  html_url : String
deriving DecidableEq, Repr

/-- One entry of the `files` array of the single-commit detail payload. -/
structure FileEntry where
  filename : String
deriving DecidableEq, Repr

/-- Decoded single-commit detail payload; `files` may be absent. -/
structure CommitDetail where
  files : Option (List FileEntry)
deriving DecidableEq, Repr

/-- One entry of `config.repos`. -/
structure RepoConfig where
  name : String
  label : String
deriving DecidableEq, Repr

/-- The per-repository record pushed onto `allData` by the main loop. -/
structure RepoData where
  repo : String
  label : String
  issues : List Issue
  prs : List PR
  commits : List Commit
deriving DecidableEq, Repr

/-- The three decoded responses the network yields for one repository:
the oracle consulted inside the per-repository `try` block. -/
structure RepoFetch where
  issuesResp : Except String (List Issue)
  prsResp : Except String (List PR)
  commitsResp : Except String (List RawCommit)

/-- Observable outcome of one program run: the exit code, the report text
written to `report.md` (`none` when the run aborted before writing), and
the error log lines. -/
structure RunResult where
  exitCode : Nat
  report : Option String
  errLogs : List String
deriving Repr

/-- JavaScript truthiness of a nullable string: `undefined`/`null` and the
empty string are falsy, every other string truthy. -/
def jsTruthyOpt : Option String → Bool
  | none => false
  | some s => s != ""

/-- Helper for `jsSplit`: splits a character list at every occurrence of
`sep`, carrying the current (reversed) chunk. -/
def jsSplitAux (sep : Char) : List Char → List Char → List (List Char)
  | [], acc => [acc.reverse]
  | c :: cs, acc =>
      if c = sep then acc.reverse :: jsSplitAux sep cs []
      else jsSplitAux sep cs (c :: acc)

/-- Model of JavaScript `s.split(sep)` for a single-character separator. -/
def jsSplit (s : String) (sep : Char) : List String :=
  (jsSplitAux sep s.data []).map String.mk

/-- Model of `new Date().toISOString().split('T')[0]`: the date part of the
ISO timestamp of the moment the collector reads the clock. -/
def todayOf (nowIso : String) : String :=
  (jsSplit nowIso 'T').headD ""

/-- The `since` query value a collector builds from its own clock read:
the template piece `${today}T00:00:00Z`. -/
def sinceOf (nowIso : String) : String :=
  todayOf nowIso ++ "T00:00:00Z"

/-- URL built by `getClosedIssues`; `nowIso` is that call's clock read. -/
def getClosedIssuesUrl (ghUser owner repo nowIso : String) : String :=
  "https://api.github.com/repos/" ++ owner ++ "/" ++ repo ++
    "/issues?state=closed&creator=" ++ ghUser ++ "&since=" ++ sinceOf nowIso

/-- URL built by `getMergedPRs`; `nowIso` is that call's clock read. -/
def getMergedPRsUrl (owner repo nowIso : String) : String :=
  "https://api.github.com/repos/" ++ owner ++ "/" ++ repo ++
    "/pulls?state=closed&since=" ++ sinceOf nowIso

/-- URL built by `getTodaysCommits`; `nowIso` is that call's clock read. -/
def getTodaysCommitsUrl (ghUser owner repo nowIso : String) : String :=
  "https://api.github.com/repos/" ++ owner ++ "/" ++ repo ++
    "/commits?author=" ++ ghUser ++ "&since=" ++ sinceOf nowIso

/-- URL built by `getModifiedFiles` for the single-commit detail endpoint. -/
def getModifiedFilesUrl (owner repo sha : String) : String :=
  "https://api.github.com/repos/" ++ owner ++ "/" ++ repo ++ "/commits/" ++ sha

/-- `getClosedIssues` returns `res.data` unchanged. -/
def getClosedIssues (resp : Except String (List Issue)) :
    Except String (List Issue) :=
  resp

/-- The callback `pr => pr.merged_at && pr.user.login === GITHUB_USER`.
When `pr.merged_at` is truthy the callback reads `pr.user.login`; on a
`null` or absent `user` that member access throws a TypeError, modelled as
`Except.error`. When `pr.merged_at` is falsy the conjunction
short-circuits and the entry is simply rejected. -/
def mergedPRPred (ghUser : String) (pr : PR) : Except String Bool :=
  if jsTruthyOpt pr.merged_at then
    match pr.user with
    | none => Except.error "TypeError: cannot read login of null"
    | some u => Except.ok (u.login == ghUser)
  else
    Except.ok false

/-- `Array.prototype.filter` with a callback that may throw: elements are
tested left to right and a thrown exception propagates to the caller. -/
def jsFilter {α : Type} (p : α → Except String Bool) :
    List α → Except String (List α)
  | [] => Except.ok []
  | x :: xs => do
      let b ← p x
      let rest ← jsFilter p xs
      pure (if b then x :: rest else rest)

/-- `getMergedPRs`: on the decoded closed-PR response, returns
`res.data.filter(pr => pr.merged_at && pr.user.login === GITHUB_USER)`. -/
def getMergedPRs (ghUser : String) (resp : Except String (List PR)) :
    Except String (List PR) :=
  resp >>= jsFilter (mergedPRPred ghUser)

/-- Projection applied per commit-list entry by `getTodaysCommits`. -/
def projectCommit (c : RawCommit) : Commit :=
  { sha := c.sha, message := c.commit.message, html_url := c.html_url }

/-- `getTodaysCommits`: maps each decoded entry to `{sha, message, html_url}`. -/
def getTodaysCommits (resp : Except String (List RawCommit)) :
    Except String (List Commit) :=
  resp.map (List.map projectCommit)

/-- Log line printed by the `catch` branch of `getModifiedFiles`. -/
def modifiedFilesErrLog (sha e : String) : String :=
  "❌ Error obteniendo archivos del commit " ++ sha ++ ": " ++ e

/-- `getModifiedFiles`: fetches the single-commit detail and returns
`res.data.files?.map(file => file.filename) || []`; on a request failure
logs the error and returns `[]`. The result is the returned file list
paired with the log line the `catch` branch printed, if any. -/
def getModifiedFiles (net : String → String → String → Except String CommitDetail)
    (owner repo sha : String) : List String × Option String :=
  match net owner repo sha with
  | Except.ok d => ((d.files.getD []).map FileEntry.filename, none)
  | Except.error e => ([], some (modifiedFilesErrLog sha e))

/-- List-item line rendered for one issue. -/
def issueItem (issue : Issue) : String :=
  "\n- [" ++ issue.title ++ "](" ++ issue.html_url ++ ")\n"

/-- Issues section of one repository: heading, then either the fixed
placeholder or one linked item per issue, appended in order. -/
def issuesBlock (label : String) (issues : List Issue) : String :=
  "\n### 🛠️ Issues Resueltos - " ++ label ++ "\n" ++
    (if issues.length == 0 then "\n- Ninguno\n"
     else issues.foldl (fun acc issue => acc ++ issueItem issue) "")

/-- List-item line rendered for one pull request. -/
def prItem (pr : PR) : String :=
  "\n- [" ++ pr.title ++ "](" ++ pr.html_url ++ ")\n"

/-- Merged-PRs section of one repository: heading, then either the fixed
placeholder or one linked item per PR, appended in order. -/
def prsBlock (label : String) (prs : List PR) : String :=
  "\n### 🔄 Pull Requests Mergiados - " ++ label ++ "\n" ++
    (if prs.length == 0 then "\n- Ninguno\n"
     else prs.foldl (fun acc pr => acc ++ prItem pr) "")

/-- Bulleted file lines rendered under one commit. -/
def fileLines (files : List String) : String :=
  files.foldl (fun acc file => acc ++ "  - " ++ file ++ "\n") ""

/-- Block rendered for one commit: sub-heading with the message, the
commit link, then the modified files fetched at this point from the
network (via `getModifiedFiles`) or the no-files placeholder, and the
separator. -/
def commitBlock (net : String → String → String → Except String CommitDetail)
    (ghUser repo : String) (commit : Commit) : String :=
  "\n#### Commit: `" ++ commit.message ++ "`\n" ++
    "- [Ver commit](" ++ commit.html_url ++ ")\n" ++
    (let files := (getModifiedFiles net ghUser repo commit.sha).1
     if files.length > 0 then "- Archivos modificados:\n" ++ fileLines files
     else "- No se encontraron archivos modificados.\n") ++
    "\n---\n"

/-- Commits section of one repository: heading, then either the fixed
placeholder or one block per commit, appended in order. -/
def commitsBlock (net : String → String → String → Except String CommitDetail)
    (ghUser repo label : String) (commits : List Commit) : String :=
  "\n### 💾 Commits del día - " ++ label ++ "\n" ++
    (if commits.length == 0 then "\n- Ninguno\n"
     else commits.foldl (fun acc c => acc ++ commitBlock net ghUser repo c) "")

/-- Everything one iteration of the `for (const data of allData)` loop
appends: repository heading, issues section, PRs section, commits section. -/
def repoSection (net : String → String → String → Except String CommitDetail)
    (ghUser : String) (data : RepoData) : String :=
  "\n## 🏗️ Repositorio: " ++ data.label ++ " (" ++ data.repo ++ ")\n" ++
    issuesBlock data.label data.issues ++
    prsBlock data.label data.prs ++
    commitsBlock net ghUser data.repo data.label data.commits

/-- Fixed title plus the date line, the value of `content` before the loop.
`localeDate` is the ambient `new Date().toLocaleDateString()` read. -/
def reportHeader (localeDate : String) : String :=
  "# Reporte Semanal de Actividades\n\n" ++ ("Fecha: " ++ localeDate ++ "\n")

/-- `generateReport`: starting from the header, appends one section per
`RepoData` in order; file lists are fetched from `net` while commits are
rendered. The returned string is the content written to `report.md`. -/
def generateReport (net : String → String → String → Except String CommitDetail)
    (ghUser localeDate : String) (allData : List RepoData) : String :=
  allData.foldl (fun acc d => acc ++ repoSection net ghUser d)
    (reportHeader localeDate)

/-- Concatenation of a list of strings in order. -/
def strConcat : List String → String
  | [] => ""
  | s :: rest => s ++ strConcat rest

/-- The retention rule exactly as the specification states it: the merge
timestamp is non-null and the author login equals the configured account. -/
def specRetainsPR (ghUser : String) (pr : PR) : Bool :=
  pr.merged_at.isSome && pr.user.elim false (fun u => u.login == ghUser)

/-- Body of the per-repository `try` block: fetch issues, then merged PRs,
then commits; the first failure aborts the block with that error. -/
def fetchRepoData (ghUser : String) (rc : RepoConfig) (f : RepoFetch) :
    Except String RepoData := do
  let issues ← getClosedIssues f.issuesResp
  let prs ← getMergedPRs ghUser f.prsResp
  let commits ← getTodaysCommits f.commitsResp
  pure { repo := rc.name, label := rc.label, issues := issues, prs := prs,
         commits := commits }

/-- Log line printed by the `catch` branch of the main loop. -/
def repoErrLog (repoName e : String) : String :=
  "❌ Error obteniendo datos de " ++ repoName ++ ": " ++ e

/-- The `for (const repoConfig of config.repos)` loop: per repository, on
success pushes the record onto the accumulated list, on failure logs the
error with the repository name and pushes nothing; either way the loop
continues. Returns the accumulated list and the error log lines. -/
def mainLoop (ghUser : String) (env : RepoConfig → RepoFetch) :
    List RepoConfig → List RepoData × List String
  | [] => ([], [])
  | rc :: rest =>
      match fetchRepoData ghUser rc (env rc) with
      | Except.ok d =>
          let r := mainLoop ghUser env rest
          (d :: r.1, r.2)
      | Except.error e =>
          let r := mainLoop ghUser env rest
          (r.1, repoErrLog rc.name e :: r.2)

/-- Log line printed when a credential is missing at startup. -/
def missingEnvLog : String :=
  "❌ Faltan variables de entorno. Verifica el archivo .env"

/-- The whole program: the startup credential check
`if (!GITHUB_TOKEN || !GITHUB_USER) process.exit(1)` followed by the main
loop and `generateReport`. The network oracles `envOracle` (per-repository
list endpoints) and `net` (single-commit detail endpoint) are consulted
only after the check passes. -/
def runProgram (token ghUserOpt : Option String)
    (envOracle : RepoConfig → RepoFetch)
    (net : String → String → String → Except String CommitDetail)
    (localeDate : String) (repos : List RepoConfig) : RunResult :=
  if !jsTruthyOpt token || !jsTruthyOpt ghUserOpt then
    { exitCode := 1, report := none, errLogs := [missingEnvLog] }
  else
    let ghUser := ghUserOpt.getD ""
    let r := mainLoop ghUser envOracle repos
    { exitCode := 0,
      report := some (generateReport net ghUser localeDate r.1),
      errLogs := r.2 }

deriving instance DecidableEq for Except

/-! ### Concrete sample inputs used by witnesses and counterexamples -/

/-- A commit-detail oracle for which every request fails. -/
def netDown : String → String → String → Except String CommitDetail :=
  fun _ _ _ => Except.error "ECONNREFUSED"

/-- A commit-detail oracle that reports one modified file, `a.ts`. -/
def netA : String → String → String → Except String CommitDetail :=
  fun _ _ _ => Except.ok ⟨some [⟨"a.ts"⟩]⟩

/-- A commit-detail oracle that reports one modified file, `b.md`. -/
def netB : String → String → String → Except String CommitDetail :=
  fun _ _ _ => Except.ok ⟨some [⟨"b.md"⟩]⟩

/-- A commit-detail oracle whose payload has no `files` list. -/
def netNoFiles : String → String → String → Except String CommitDetail :=
  fun _ _ _ => Except.ok ⟨none⟩

/-- A commit-detail oracle that knows only the commit `abc123`. -/
def netC : String → String → String → Except String CommitDetail :=
  fun _ _ sha =>
    if sha == "abc123" then Except.ok ⟨some [⟨"a.ts"⟩]⟩
    else Except.error "unknown sha"

/-- Another commit-detail oracle agreeing with `netC` exactly on `abc123`. -/
def netD : String → String → String → Except String CommitDetail :=
  fun _ _ sha =>
    if sha == "abc123" then Except.ok ⟨some [⟨"a.ts"⟩]⟩
    else Except.ok ⟨none⟩

/-- A sample commit with sha `abc123`. -/
def cxCommit : Commit :=
  { sha := "abc123", message := "fix bug", html_url := "hu" }

/-- A sample accumulated list holding one repository with one commit. -/
def cxData : List RepoData :=
  [{ repo := "repo1", label := "Repo 1", issues := [], prs := [],
     commits := [cxCommit] }]

/-- A decoded closed PR that was merged but whose `user` field is null. -/
def nullUserPR : PR :=
  { title := "fix", html_url := "u", merged_at := some "2024-11-07T10:00:00Z",
    user := none }

/-- A mixed decoded closed-PR list: merged by alice, closed without
merging by alice, merged by bob. -/
def samplePRs : List PR :=
  [{ title := "p1", html_url := "u1", merged_at := some "2024-11-07T10:00:00Z",
     user := some ⟨"alice"⟩ },
   { title := "p2", html_url := "u2", merged_at := none,
     user := some ⟨"alice"⟩ },
   { title := "p3", html_url := "u3", merged_at := some "2024-11-07T11:00:00Z",
     user := some ⟨"bob"⟩ }]

/-- Per-repository responses that are all empty successes. -/
def emptyFetch : RepoFetch :=
  ⟨Except.ok [], Except.ok [], Except.ok []⟩

/-- A list-endpoint oracle for which every repository succeeds (empty data). -/
def envAllOk : RepoConfig → RepoFetch :=
  fun _ => emptyFetch

/-- A list-endpoint oracle for which every repository fails on its issues
request. -/
def envFailAll : RepoConfig → RepoFetch :=
  fun _ => ⟨Except.error "boom", Except.ok [], Except.ok []⟩

/-- A list-endpoint oracle for which exactly the repository named `bad`
fails. -/
def envBadRepo : RepoConfig → RepoFetch :=
  fun rc =>
    if rc.name == "bad" then ⟨Except.error "boom", Except.ok [], Except.ok []⟩
    else emptyFetch

/-- A list-endpoint oracle whose closed-PR response holds `nullUserPR`. -/
def envNullUser : RepoConfig → RepoFetch :=
  fun _ => ⟨Except.ok [], Except.ok [nullUserPR], Except.ok []⟩

/-! ### Helper lemmas -/

theorem foldl_append_eq {α : Type} (f : α → String) :
    ∀ (l : List α) (init : String),
      l.foldl (fun acc x => acc ++ f x) init = init ++ strConcat (l.map f)
  | [], init => by simp [strConcat]
  | x :: xs, init => by
      rw [List.foldl_cons, foldl_append_eq f xs (init ++ f x), List.map_cons]
      rw [strConcat, String.append_assoc]

theorem strConcat_nil : strConcat [] = "" := rfl

theorem mainLoop_fst (ghUser : String) (env : RepoConfig → RepoFetch) :
    ∀ repos : List RepoConfig,
      (mainLoop ghUser env repos).1 =
        repos.filterMap (fun rc => (fetchRepoData ghUser rc (env rc)).toOption)
  | [] => rfl
  | rc :: rest => by
      rw [List.filterMap_cons]
      cases h : fetchRepoData ghUser rc (env rc) with
      | ok d => simp [mainLoop, h, Except.toOption, mainLoop_fst ghUser env rest]
      | error e => simp [mainLoop, h, Except.toOption, mainLoop_fst ghUser env rest]

theorem mainLoop_append (ghUser : String) (env : RepoConfig → RepoFetch) :
    ∀ l1 l2 : List RepoConfig,
      mainLoop ghUser env (l1 ++ l2) =
        ((mainLoop ghUser env l1).1 ++ (mainLoop ghUser env l2).1,
         (mainLoop ghUser env l1).2 ++ (mainLoop ghUser env l2).2)
  | [], l2 => by simp [mainLoop]
  | rc :: rest, l2 => by
      cases h : fetchRepoData ghUser rc (env rc) with
      | ok d => simp [mainLoop, h, mainLoop_append ghUser env rest l2]
      | error e => simp [mainLoop, h, mainLoop_append ghUser env rest l2]

theorem jsSplitAux_no_sep (sep : Char) :
    ∀ (l r acc : List Char), sep ∉ l →
      jsSplitAux sep (l ++ sep :: r) acc =
        (acc.reverse ++ l) :: jsSplitAux sep r []
  | [], r, acc, _ => by simp [jsSplitAux]
  | c :: cs, r, acc, h => by
      have hc : ¬ c = sep := by
        intro he
        exact h (by rw [← he]; exact List.mem_cons_self c cs)
      have hcs : sep ∉ cs := fun hm => h (List.mem_cons_of_mem c hm)
      simp only [List.cons_append, jsSplitAux, if_neg hc, List.append_eq]
      rw [jsSplitAux_no_sep sep cs r (c :: acc) hcs]
      simp

theorem todayOf_append (d rest : String) (h : 'T' ∉ d.data) :
    todayOf (d ++ "T" ++ rest) = d := by
  unfold todayOf jsSplit
  have hdata : (d ++ "T" ++ rest).data = d.data ++ 'T' :: rest.data := by
    rw [String.data_append, String.data_append, List.append_assoc]
    rfl
  rw [hdata, jsSplitAux_no_sep 'T' d.data rest.data [] h]
  simp

theorem sinceOf_append (d rest : String) (h : 'T' ∉ d.data) :
    sinceOf (d ++ "T" ++ rest) = d ++ "T00:00:00Z" := by
  unfold sinceOf
  rw [todayOf_append d rest h]

theorem generateReport_eq (net : String → String → String → Except String CommitDetail)
    (ghUser localeDate : String) (allData : List RepoData) :
    generateReport net ghUser localeDate allData =
      reportHeader localeDate ++ strConcat (allData.map (repoSection net ghUser)) :=
  foldl_append_eq _ allData _

theorem issuesBlock_eq (label : String) (issues : List Issue) :
    issuesBlock label issues =
      "\n### 🛠️ Issues Resueltos - " ++ label ++ "\n" ++
        (if issues.length == 0 then "\n- Ninguno\n"
         else strConcat (issues.map issueItem)) := by
  unfold issuesBlock
  cases h : issues.length == 0 with
  | true => simp [h]
  | false => simp [h, foldl_append_eq]

theorem prsBlock_eq (label : String) (prs : List PR) :
    prsBlock label prs =
      "\n### 🔄 Pull Requests Mergiados - " ++ label ++ "\n" ++
        (if prs.length == 0 then "\n- Ninguno\n"
         else strConcat (prs.map prItem)) := by
  unfold prsBlock
  cases h : prs.length == 0 with
  | true => simp [h]
  | false => simp [h, foldl_append_eq]

theorem commitsBlock_eq (net : String → String → String → Except String CommitDetail)
    (ghUser repo label : String) (commits : List Commit) :
    commitsBlock net ghUser repo label commits =
      "\n### 💾 Commits del día - " ++ label ++ "\n" ++
        (if commits.length == 0 then "\n- Ninguno\n"
         else strConcat (commits.map (commitBlock net ghUser repo))) := by
  unfold commitsBlock
  cases h : commits.length == 0 with
  | true => simp [h]
  | false => simp [h, foldl_append_eq]

theorem commitBlock_congr (net1 net2 : String → String → String → Except String CommitDetail)
    (ghUser repo : String) (c : Commit)
    (h : net1 ghUser repo c.sha = net2 ghUser repo c.sha) :
    commitBlock net1 ghUser repo c = commitBlock net2 ghUser repo c := by
  unfold commitBlock getModifiedFiles
  rw [h]

theorem commitsBlock_congr (net1 net2 : String → String → String → Except String CommitDetail)
    (ghUser repo label : String) (commits : List Commit)
    (h : ∀ c ∈ commits, net1 ghUser repo c.sha = net2 ghUser repo c.sha) :
    commitsBlock net1 ghUser repo label commits =
      commitsBlock net2 ghUser repo label commits := by
  rw [commitsBlock_eq, commitsBlock_eq]
  congr 1
  cases hl : commits.length == 0 with
  | true => simp
  | false =>
      simp only [hl, if_false, Bool.false_eq_true]
      congr 1
      exact List.map_congr_left (fun c hc => commitBlock_congr net1 net2 ghUser repo c (h c hc))

theorem repoSection_congr (net1 net2 : String → String → String → Except String CommitDetail)
    (ghUser : String) (d : RepoData)
    (h : ∀ c ∈ d.commits, net1 ghUser d.repo c.sha = net2 ghUser d.repo c.sha) :
    repoSection net1 ghUser d = repoSection net2 ghUser d := by
  unfold repoSection
  rw [commitsBlock_congr net1 net2 ghUser d.repo d.label d.commits h]

theorem jsFilter_mergedPRPred (ghUser : String) :
    ∀ prs : List PR,
      (∀ pr ∈ prs, pr.user ≠ none) →
      (∀ pr ∈ prs, pr.merged_at ≠ some "") →
      jsFilter (mergedPRPred ghUser) prs =
        Except.ok (prs.filter (specRetainsPR ghUser))
  | [], _, _ => rfl
  | pr :: rest, hu, hm => by
      have hu1 : pr.user ≠ none := hu pr (List.mem_cons_self pr rest)
      have hm1 : pr.merged_at ≠ some "" := hm pr (List.mem_cons_self pr rest)
      have ih := jsFilter_mergedPRPred ghUser rest
        (fun q hq => hu q (List.mem_cons_of_mem pr hq))
        (fun q hq => hm q (List.mem_cons_of_mem pr hq))
      cases hma : pr.merged_at with
      | none =>
          have hspec : specRetainsPR ghUser pr = false := by
            simp [specRetainsPR, hma]
          simp [jsFilter, mergedPRPred, hma, jsTruthyOpt, ih, List.filter_cons, hspec]
          rfl
      | some ts =>
          have hts : ts ≠ "" := by
            intro he
            exact hm1 (by rw [hma, he])
          cases hus : pr.user with
          | none => exact absurd hus hu1
          | some u =>
              have hspec : specRetainsPR ghUser pr = (u.login == ghUser) := by
                simp [specRetainsPR, hma, hus]
              have htr : jsTruthyOpt (some ts) = true := by
                simp [jsTruthyOpt, hts]
              cases hb : u.login == ghUser with
              | true =>
                  simp [jsFilter, mergedPRPred, hma, hus, htr, hb, ih,
                    List.filter_cons, hspec]
                  rfl
              | false =>
                  simp [jsFilter, mergedPRPred, hma, hus, htr, hb, ih,
                    List.filter_cons, hspec]
                  rfl

theorem getMergedPRs_ok (ghUser : String) (prs : List PR)
    (hu : ∀ pr ∈ prs, pr.user ≠ none)
    (hm : ∀ pr ∈ prs, pr.merged_at ≠ some "") :
    getMergedPRs ghUser (Except.ok prs) =
      Except.ok (prs.filter (specRetainsPR ghUser)) := by
  unfold getMergedPRs
  rw [show (Except.ok prs >>= jsFilter (mergedPRPred ghUser)) = jsFilter (mergedPRPred ghUser) prs from rfl]
  exact jsFilter_mergedPRPred ghUser prs hu hm

/-! ### Claims -/

set_option maxRecDepth 4000 in
/-- C1 counterexample: on identical input data the Report Generator output
is not byte-identical across invocations — it changes with the ambient
date read during formatting, and with the commit-detail responses fetched
from the network during report assembly. -/
theorem C1_counterexample :
    generateReport netA "alice" "7/11/2024" cxData ≠
        generateReport netA "alice" "8/11/2024" cxData ∧
      generateReport netA "alice" "7/11/2024" cxData ≠
        generateReport netB "alice" "7/11/2024" cxData := by
  constructor <;> decide

/-- C1 (amended): the Report Generator is deterministic, order-preserving
formatting, but its output depends on the ambient current-date string and
on the per-commit file-list fetches performed during report assembly; two
invocations with identical input data, the same date string, and networks
that agree on every commit appearing in the input produce byte-identical
output. -/
theorem C1_theorem
    (net1 net2 : String → String → String → Except String CommitDetail)
    (ghUser localeDate : String) (allData : List RepoData)
    (h : ∀ d ∈ allData, ∀ c ∈ d.commits,
      net1 ghUser d.repo c.sha = net2 ghUser d.repo c.sha) :
    generateReport net1 ghUser localeDate allData =
      generateReport net2 ghUser localeDate allData := by
  rw [generateReport_eq, generateReport_eq]
  congr 2
  exact List.map_congr_left (fun d hd => repoSection_congr net1 net2 ghUser d (h d hd))

/-- C1 witness: two oracles agreeing exactly on the one commit in the
input yield the same report. -/
theorem C1_witness :
    generateReport netC "alice" "7/11/2024" cxData =
      generateReport netD "alice" "7/11/2024" cxData :=
  C1_theorem netC netD "alice" "7/11/2024" cxData (by decide)

/-- C3: on a decoded closed-PR list as the platform returns it (every
entry has a user object and no empty-string merge timestamp), the
Merged-PRs Collector returns exactly the sublist of entries whose merge
timestamp is non-null and whose author login equals the configured
account, in order. -/
theorem C3_theorem (ghUser : String) (prs : List PR)
    (hu : ∀ pr ∈ prs, pr.user ≠ none)
    (hm : ∀ pr ∈ prs, pr.merged_at ≠ some "") :
    getMergedPRs ghUser (Except.ok prs) =
      Except.ok (prs.filter (specRetainsPR ghUser)) :=
  getMergedPRs_ok ghUser prs hu hm

/-- C3 witness: on a mixed list (merged by alice, closed unmerged by
alice, merged by bob) only the first entry is retained. -/
theorem C3_witness :
    getMergedPRs "alice" (Except.ok samplePRs) =
      Except.ok (samplePRs.filter (specRetainsPR "alice")) :=
  C3_theorem "alice" samplePRs (by decide) (by decide)

/-- C5: the File-Diff Fetcher returns the ordered filenames of the detail
payload when `files` is present, the empty list when it is absent, and on
a request failure returns the empty list together with the logged error
line naming the commit instead of propagating; consequently the commits
section still renders one block per commit, each from its own fetch. -/
theorem C5_theorem
    (netOk netNone netErr : String → String → String → Except String CommitDetail)
    (owner repo label sha : String) (fs : List FileEntry) (e : String)
    (commits : List Commit)
    (hok : netOk owner repo sha = Except.ok ⟨some fs⟩)
    (hnone : netNone owner repo sha = Except.ok ⟨none⟩)
    (herr : netErr owner repo sha = Except.error e) :
    getModifiedFiles netOk owner repo sha = (fs.map FileEntry.filename, none) ∧
      getModifiedFiles netNone owner repo sha = ([], none) ∧
      getModifiedFiles netErr owner repo sha =
        ([], some (modifiedFilesErrLog sha e)) ∧
      commitsBlock netErr owner repo label commits =
        "\n### 💾 Commits del día - " ++ label ++ "\n" ++
          (if commits.length == 0 then "\n- Ninguno\n"
           else strConcat (commits.map (commitBlock netErr owner repo))) := by
  refine ⟨?_, ?_, ?_, commitsBlock_eq netErr owner repo label commits⟩
  · simp [getModifiedFiles, hok]
  · simp [getModifiedFiles, hnone]
  · simp [getModifiedFiles, herr]

/-- C5 witness: the three cases at concrete oracles, and the commit block
list for a failing oracle. -/
theorem C5_witness :
    getModifiedFiles netA "alice" "repo1" "abc123" = ([⟨"a.ts"⟩].map FileEntry.filename, none) ∧
      getModifiedFiles netNoFiles "alice" "repo1" "abc123" = ([], none) ∧
      getModifiedFiles netDown "alice" "repo1" "abc123" =
        ([], some (modifiedFilesErrLog "abc123" "ECONNREFUSED")) ∧
      commitsBlock netDown "alice" "repo1" "Repo 1" [cxCommit] =
        "\n### 💾 Commits del día - " ++ "Repo 1" ++ "\n" ++
          (if [cxCommit].length == 0 then "\n- Ninguno\n"
           else strConcat ([cxCommit].map (commitBlock netDown "alice" "repo1"))) :=
  C5_theorem netA netNoFiles netDown "alice" "repo1" "Repo 1" "abc123"
    [⟨"a.ts"⟩] "ECONNREFUSED" [cxCommit] rfl rfl rfl

/-- C7: an empty issue list (respectively PR list) renders the section
heading followed by exactly the fixed `Ninguno` placeholder, and a
non-empty list renders one linked item per entry with no placeholder. -/
theorem C7_theorem (label : String) (issues : List Issue) (prs : List PR) :
    issuesBlock label issues =
      "\n### 🛠️ Issues Resueltos - " ++ label ++ "\n" ++
        (if issues.length == 0 then "\n- Ninguno\n"
         else strConcat (issues.map issueItem)) ∧
      prsBlock label prs =
        "\n### 🔄 Pull Requests Mergiados - " ++ label ++ "\n" ++
          (if prs.length == 0 then "\n- Ninguno\n"
           else strConcat (prs.map prItem)) ∧
      (issues.map issueItem).length = issues.length ∧
      (prs.map prItem).length = prs.length :=
  ⟨issuesBlock_eq label issues, prsBlock_eq label prs,
    List.length_map issues issueItem, List.length_map prs prItem⟩

/-- C9: a closed PR whose merge timestamp is set but whose user is null
makes the filter inside the Merged-PRs Collector throw instead of
excluding the entry, and the per-repository catch then discards that
repository's whole report entry, leaving only the log line. -/
theorem C9_theorem :
    getMergedPRs "alice" (Except.ok [nullUserPR]) =
        Except.error "TypeError: cannot read login of null" ∧
      (mainLoop "alice" envNullUser [⟨"repo1", "Repo 1"⟩]).1 = [] ∧
      (mainLoop "alice" envNullUser [⟨"repo1", "Repo 1"⟩]).2 =
        [repoErrLog "repo1" "TypeError: cannot read login of null"] :=
  ⟨rfl, rfl, rfl⟩

/-- C2: when fetching one repository's data fails, the failure is caught
and logged with the repository name, that repository's record is never
added to the accumulated list (no partial record), every other repository
is processed exactly as it would be on its own, and the run still
completes with exit status 0. -/
theorem C2_theorem (token ghUserOpt : Option String)
    (env : RepoConfig → RepoFetch)
    (net : String → String → String → Except String CommitDetail)
    (localeDate : String) (pre post : List RepoConfig) (rc : RepoConfig)
    (e : String)
    (ht : jsTruthyOpt token = true) (hu : jsTruthyOpt ghUserOpt = true)
    (h : fetchRepoData (ghUserOpt.getD "") rc (env rc) = Except.error e) :
    (mainLoop (ghUserOpt.getD "") env (pre ++ rc :: post)).1 =
        (mainLoop (ghUserOpt.getD "") env pre).1 ++
          (mainLoop (ghUserOpt.getD "") env post).1 ∧
      (mainLoop (ghUserOpt.getD "") env (pre ++ rc :: post)).2 =
        (mainLoop (ghUserOpt.getD "") env pre).2 ++
          repoErrLog rc.name e :: (mainLoop (ghUserOpt.getD "") env post).2 ∧
      (runProgram token ghUserOpt env net localeDate
        (pre ++ rc :: post)).exitCode = 0 := by
  have hstep : mainLoop (ghUserOpt.getD "") env (rc :: post) =
      ((mainLoop (ghUserOpt.getD "") env post).1,
       repoErrLog rc.name e :: (mainLoop (ghUserOpt.getD "") env post).2) := by
    simp [mainLoop, h]
  refine ⟨?_, ?_, ?_⟩
  · rw [mainLoop_append, hstep]
  · rw [mainLoop_append, hstep]
  · simp [runProgram, ht, hu]

/-- C2 witness: with the middle repository failing, the loop yields the
two flanking repositories and one log line, and the run exits 0. -/
theorem C2_witness :
    (mainLoop ((some "alice").getD "") envBadRepo
        ([⟨"good1", "G1"⟩] ++ ⟨"bad", "B"⟩ :: [⟨"good2", "G2"⟩])).1 =
        (mainLoop ((some "alice").getD "") envBadRepo [⟨"good1", "G1"⟩]).1 ++
          (mainLoop ((some "alice").getD "") envBadRepo [⟨"good2", "G2"⟩]).1 ∧
      (mainLoop ((some "alice").getD "") envBadRepo
        ([⟨"good1", "G1"⟩] ++ ⟨"bad", "B"⟩ :: [⟨"good2", "G2"⟩])).2 =
        (mainLoop ((some "alice").getD "") envBadRepo [⟨"good1", "G1"⟩]).2 ++
          repoErrLog (RepoConfig.mk "bad" "B").name "boom" ::
            (mainLoop ((some "alice").getD "") envBadRepo [⟨"good2", "G2"⟩]).2 ∧
      (runProgram (some "tok") (some "alice") envBadRepo netDown "d"
        ([⟨"good1", "G1"⟩] ++ ⟨"bad", "B"⟩ :: [⟨"good2", "G2"⟩])).exitCode = 0 :=
  C2_theorem (some "tok") (some "alice") envBadRepo netDown "d"
    [⟨"good1", "G1"⟩] [⟨"good2", "G2"⟩] ⟨"bad", "B"⟩ "boom" rfl rfl rfl

/-- C4 counterexample: both credentials are present (the token is the
empty string, a present value) yet the process aborts with exit status 1
and writes no report, refuting that presence of both credentials rules
out the credential abort. -/
theorem C4_counterexample :
    (some "" : Option String).isSome = true ∧
      (some "alice" : Option String).isSome = true ∧
      (runProgram (some "") (some "alice") envAllOk netDown "d" []).exitCode = 1 ∧
      (runProgram (some "") (some "alice") envAllOk netDown "d" []).report = none :=
  ⟨rfl, rfl, rfl, rfl⟩

/-- C4 (amended): if either credential is absent or is the empty string,
the process logs the configuration error and exits with status 1 without
consulting the network (the outcome is independent of both network
oracles) and without writing a report; if both are present and non-empty,
no credential abort occurs and the run exits 0. -/
theorem C4_theorem (token ghUserOpt : Option String)
    (env env2 : RepoConfig → RepoFetch)
    (net net2 : String → String → String → Except String CommitDetail)
    (localeDate localeDate2 : String) (repos : List RepoConfig) :
    (¬(jsTruthyOpt token = true ∧ jsTruthyOpt ghUserOpt = true) →
      (runProgram token ghUserOpt env net localeDate repos).exitCode = 1 ∧
        (runProgram token ghUserOpt env net localeDate repos).report = none ∧
        (runProgram token ghUserOpt env net localeDate repos).errLogs =
          [missingEnvLog] ∧
        runProgram token ghUserOpt env net localeDate repos =
          runProgram token ghUserOpt env2 net2 localeDate2 repos) ∧
      (jsTruthyOpt token = true → jsTruthyOpt ghUserOpt = true →
        (runProgram token ghUserOpt env net localeDate repos).exitCode = 0) := by
  constructor
  · intro h
    have hcond : (!jsTruthyOpt token || !jsTruthyOpt ghUserOpt) = true := by
      cases ht : jsTruthyOpt token with
      | false => rfl
      | true =>
          cases hu : jsTruthyOpt ghUserOpt with
          | false => rfl
          | true => exact absurd ⟨ht, hu⟩ h
    refine ⟨?_, ?_, ?_, ?_⟩ <;> simp [runProgram, hcond]
  · intro ht hu
    simp [runProgram, ht, hu]

/-- C4 witness: an absent token aborts with exit 1, and present non-empty
credentials reach normal completion with exit 0. -/
theorem C4_witness :
    ((runProgram none (some "alice") envAllOk netDown "d" []).exitCode = 1 ∧
        (runProgram none (some "alice") envAllOk netDown "d" []).report = none ∧
        (runProgram none (some "alice") envAllOk netDown "d" []).errLogs =
          [missingEnvLog] ∧
        runProgram none (some "alice") envAllOk netDown "d" [] =
          runProgram none (some "alice") envFailAll netA "x" []) ∧
      (runProgram (some "tok") (some "alice") envAllOk netDown "d" []).exitCode = 0 :=
  ⟨(C4_theorem none (some "alice") envAllOk envFailAll netDown netA "d" "x" []).1
      (by decide),
    (C4_theorem (some "tok") (some "alice") envAllOk envFailAll netDown netA "d" "x"
      []).2 rfl rfl⟩

/-- C6: with valid credentials the written report is exactly the header
followed by the concatenation, in configuration order, of one rendered
section per repository whose fetch succeeded; repositories whose fetch
failed contribute nothing. -/
theorem C6_theorem (token ghUserOpt : Option String)
    (env : RepoConfig → RepoFetch)
    (net : String → String → String → Except String CommitDetail)
    (localeDate : String) (repos : List RepoConfig)
    (ht : jsTruthyOpt token = true) (hu : jsTruthyOpt ghUserOpt = true) :
    (runProgram token ghUserOpt env net localeDate repos).report =
      some (reportHeader localeDate ++
        strConcat
          ((repos.filterMap fun rc =>
              (fetchRepoData (ghUserOpt.getD "") rc (env rc)).toOption).map
            (repoSection net (ghUserOpt.getD "")))) := by
  simp only [runProgram, ht, hu, Bool.not_true, Bool.or_self, Bool.false_eq_true,
    if_false]
  rw [generateReport_eq, mainLoop_fst]

/-- C6 witness: with the middle repository failing, the report is the
header plus the two sections of the successful repositories in order. -/
theorem C6_witness :
    (runProgram (some "tok") (some "alice") envBadRepo netDown "d"
        [⟨"good1", "G1"⟩, ⟨"bad", "B"⟩, ⟨"good2", "G2"⟩]).report =
      some (reportHeader "d" ++
        strConcat
          (([⟨"good1", "G1"⟩, ⟨"bad", "B"⟩, ⟨"good2", "G2"⟩].filterMap
              fun rc =>
                (fetchRepoData ((some "alice").getD "") rc
                  (envBadRepo rc)).toOption).map
            (repoSection netDown ((some "alice").getD "")))) :=
  C6_theorem (some "tok") (some "alice") envBadRepo netDown "d"
    [⟨"good1", "G1"⟩, ⟨"bad", "B"⟩, ⟨"good2", "G2"⟩] rfl rfl

/-- C8: each of the three collectors builds its request URL from its own
clock read, and the `since` parameter it sends is the date part of that
read followed by `T00:00:00Z`, i.e. midnight UTC of the current calendar
day at that call; the three reads are independent and may differ. -/
theorem C8_theorem (ghUser owner repo : String) (d1 d2 d3 r1 r2 r3 : String)
    (h1 : 'T' ∉ d1.data) (h2 : 'T' ∉ d2.data) (h3 : 'T' ∉ d3.data) :
    getClosedIssuesUrl ghUser owner repo (d1 ++ "T" ++ r1) =
        "https://api.github.com/repos/" ++ owner ++ "/" ++ repo ++
          "/issues?state=closed&creator=" ++ ghUser ++ "&since=" ++
          (d1 ++ "T00:00:00Z") ∧
      getMergedPRsUrl owner repo (d2 ++ "T" ++ r2) =
        "https://api.github.com/repos/" ++ owner ++ "/" ++ repo ++
          "/pulls?state=closed&since=" ++ (d2 ++ "T00:00:00Z") ∧
      getTodaysCommitsUrl ghUser owner repo (d3 ++ "T" ++ r3) =
        "https://api.github.com/repos/" ++ owner ++ "/" ++ repo ++
          "/commits?author=" ++ ghUser ++ "&since=" ++ (d3 ++ "T00:00:00Z") := by
  refine ⟨?_, ?_, ?_⟩
  · unfold getClosedIssuesUrl
    rw [sinceOf_append d1 r1 h1]
  · unfold getMergedPRsUrl
    rw [sinceOf_append d2 r2 h2]
  · unfold getTodaysCommitsUrl
    rw [sinceOf_append d3 r3 h3]

/-- C8 witness: concrete clock reads, one per collector, two of them on
different sides of a UTC midnight. -/
theorem C8_witness :
    getClosedIssuesUrl "alice" "alice" "repo1"
        ("2024-11-07" ++ "T" ++ "23:59:58.000Z") =
        "https://api.github.com/repos/" ++ "alice" ++ "/" ++ "repo1" ++
          "/issues?state=closed&creator=" ++ "alice" ++ "&since=" ++
          ("2024-11-07" ++ "T00:00:00Z") ∧
      getMergedPRsUrl "alice" "repo1" ("2024-11-07" ++ "T" ++ "23:59:59.000Z") =
        "https://api.github.com/repos/" ++ "alice" ++ "/" ++ "repo1" ++
          "/pulls?state=closed&since=" ++ ("2024-11-07" ++ "T00:00:00Z") ∧
      getTodaysCommitsUrl "alice" "alice" "repo1"
        ("2024-11-08" ++ "T" ++ "00:00:01.000Z") =
        "https://api.github.com/repos/" ++ "alice" ++ "/" ++ "repo1" ++
          "/commits?author=" ++ "alice" ++ "&since=" ++
          ("2024-11-08" ++ "T00:00:00Z") :=
  C8_theorem "alice" "alice" "repo1" "2024-11-07" "2024-11-07" "2024-11-08"
    "23:59:58.000Z" "23:59:59.000Z" "00:00:01.000Z"
    (by decide) (by decide) (by decide)

/-- C10: with valid credentials, when every configured repository fails to
fetch (or none is configured) the run still completes with exit 0 and the
written report is exactly the title header plus the date line. -/
theorem C10_theorem (token ghUserOpt : Option String)
    (env : RepoConfig → RepoFetch)
    (net : String → String → String → Except String CommitDetail)
    (localeDate : String) (repos : List RepoConfig)
    (ht : jsTruthyOpt token = true) (hu : jsTruthyOpt ghUserOpt = true)
    (hfail : ∀ rc ∈ repos,
      (fetchRepoData (ghUserOpt.getD "") rc (env rc)).toOption = none) :
    (runProgram token ghUserOpt env net localeDate repos).exitCode = 0 ∧
      (runProgram token ghUserOpt env net localeDate repos).report =
        some (reportHeader localeDate) := by
  have hnil : (mainLoop (ghUserOpt.getD "") env repos).1 = [] := by
    rw [mainLoop_fst]
    exact List.filterMap_eq_nil_iff.mpr hfail
  refine ⟨by simp [runProgram, ht, hu], ?_⟩
  simp only [runProgram, ht, hu, Bool.not_true, Bool.or_self, Bool.false_eq_true,
    if_false]
  rw [hnil, generateReport_eq]
  simp [strConcat]

/-- C10 witness: one configured repository whose issues fetch fails; the
run exits 0 and the report is just the header. -/
theorem C10_witness :
    (runProgram (some "tok") (some "alice") envFailAll netDown "d"
        [⟨"repo1", "R1"⟩]).exitCode = 0 ∧
      (runProgram (some "tok") (some "alice") envFailAll netDown "d"
        [⟨"repo1", "R1"⟩]).report = some (reportHeader "d") :=
  C10_theorem (some "tok") (some "alice") envFailAll netDown "d"
    [⟨"repo1", "R1"⟩] rfl rfl (by decide)
